import Mathlib

/-!
Shallow embedding of the Particle repository's edge-field extraction and
particle-steering core.  The source files are src/unnamed/part_002 (the
latest ParticleCanvas variant, suffix `_v2` here) and the middle variant
contained in src/unnamed/part_001 at lines 156-489 (suffix `_v1`).

Modelling conventions:
* JS numbers are modelled as rationals.
* `Math.sqrt` / `Math.hypot` are modelled by an explicit square-root
  parameter `rsqrt : Rat -> Rat`; no claim below depends on the numeric
  value of a square root, and concrete witnesses instantiate `rsqrt` with
  `Rat.sqrt`, which is exact on the perfect squares used.
* Each `Math.random()` call is modelled as the next value of an explicit
  stream `r : Nat -> Rat`, consumed in source order: first the sample
  probes (two draws per probe), then, per particle, the sample picks, the
  tangential jitter and the life increment.  The number of draws per
  particle is uniform across one call, so particle `j` reads the stream at
  a fixed computable offset.
* The identity-keyed `prevPosMap` is modelled as an index-keyed lookup
  `Nat -> Option (Rat x Rat)` (the pool is fixed, so particle identity is
  its index); the updated map is returned alongside the new pool.
-/

/-- One simulated particle (part_002 `initParticles`, lines 121-139). -/
structure Particle where
  x : ℚ
  y : ℚ
  vx : ℚ
  vy : ℚ
  size : ℚ
  baseSize : ℚ
  life : ℚ
  hueOffset : ℚ
  deriving DecidableEq

instance : Inhabited Particle :=
  ⟨⟨0, 0, 0, 0, 0, 0, 0, 0⟩⟩

/-- The force field for one tick (part_002 `computeEdgeField`, line 183:
`{ w, h, mag, gx: gxF, gy: gyF, edgeCount }`). -/
structure EdgeField where
  w : ℕ
  h : ℕ
  mag : List ℚ
  gx : List ℚ
  gy : List ℚ
  edgeCount : ℕ
  deriving DecidableEq

/-- An entry of the edge sample pool (part_002 line 198 / part_001 line 340:
`{ x, y, idx, strength }`). -/
structure Sample where
  x : ℕ
  y : ℕ
  idx : ℕ
  strength : ℚ
  deriving DecidableEq

instance : Inhabited Sample :=
  ⟨⟨0, 0, 0, 0⟩⟩

/-- The running best candidate of the nearest-sample search
(part_002 line 219 / part_001 line 367: `{ tx, ty, idx, strength }`). -/
structure Best where
  tx : ℚ
  ty : ℚ
  idx : ℕ
  strength : ℚ
  deriving DecidableEq

/- Tuned constants of part_002 (lines 3-12). -/

def SIZE_MIN_v2 : ℚ := 0.8
def SIZE_MAX_v2 : ℚ := 1.8
def EDGE_THRESHOLD_v2 : ℚ := 60
def EDGE_SMOOTH_v2 : ℚ := 0.65
def STICK_FORCE_v2 : ℚ := 0.45
def TANGENTIAL_JITTER_v2 : ℚ := 0.4
def DRAG_v2 : ℚ := 0.88
def SPEED_THRESHOLD_v2 : ℚ := 3

/- Tuned constants of part_001 (lines 158-167). -/

def SIZE_MIN_v1 : ℚ := 1.2
def SIZE_MAX_v1 : ℚ := 2.4
def EDGE_THRESHOLD_v1 : ℚ := 20
def EDGE_SMOOTH_v1 : ℚ := 0.5
def STICK_FORCE_v1 : ℚ := 0.8
def TANGENTIAL_JITTER_v1 : ℚ := 0.5
def DRAG_v1 : ℚ := 0.85
def SPEED_THRESHOLD_v1 : ℚ := 3

/-- The clamped-pixel read `at` of `computeEdgeField`
(part_002 lines 151-156): coordinates are clamped into the buffer and
channel 0 of the RGBA pixel is read; the buffer is modelled as an
intensity function `img`. -/
def atPix (w h : ℕ) (img : ℕ → ℕ → ℚ) (x y : ℤ) : ℚ :=
  let xc : ℤ := max 0 (min ((w : ℤ) - 1) x)
  let yc : ℤ := max 0 (min ((h : ℤ) - 1) y)
  img xc.toNat yc.toNat

/-- The Sobel horizontal response `sx = (tr + 2*mr + br) - (tl + 2*ml + bl)`
(part_002 line 164). -/
def sobelX (w h : ℕ) (img : ℕ → ℕ → ℚ) (x y : ℕ) : ℚ :=
  (atPix w h img ((x : ℤ) + 1) ((y : ℤ) - 1)
      + 2 * atPix w h img ((x : ℤ) + 1) (y : ℤ)
      + atPix w h img ((x : ℤ) + 1) ((y : ℤ) + 1))
    - (atPix w h img ((x : ℤ) - 1) ((y : ℤ) - 1)
      + 2 * atPix w h img ((x : ℤ) - 1) (y : ℤ)
      + atPix w h img ((x : ℤ) - 1) ((y : ℤ) + 1))

/-- The Sobel vertical response `sy = (bl + 2*bc + br) - (tl + 2*tc + tr)`
(part_002 line 165). -/
def sobelY (w h : ℕ) (img : ℕ → ℕ → ℚ) (x y : ℕ) : ℚ :=
  (atPix w h img ((x : ℤ) - 1) ((y : ℤ) + 1)
      + 2 * atPix w h img (x : ℤ) ((y : ℤ) + 1)
      + atPix w h img ((x : ℤ) + 1) ((y : ℤ) + 1))
    - (atPix w h img ((x : ℤ) - 1) ((y : ℤ) - 1)
      + 2 * atPix w h img (x : ℤ) ((y : ℤ) - 1)
      + atPix w h img ((x : ℤ) + 1) ((y : ℤ) - 1))

/-- Raw thresholded gradient magnitude of one interior cell
(part_002 lines 166-169): `g = sqrt(sx*sx + sy*sy) / 4`,
zeroed unless `g > threshold`. -/
def rawMag (rsqrt : ℚ → ℚ) (threshold : ℚ) (w h : ℕ) (img : ℕ → ℕ → ℚ)
    (x y : ℕ) : ℚ :=
  let sx := sobelX w h img x y
  let sy := sobelY w h img x y
  let g := rsqrt (sx * sx + sy * sy) / 4
  if g > threshold then g else 0

/-- Interior-cell test: the Sobel loops of `computeEdgeField` run over
`1 <= y < h-1`, `1 <= x < w-1` (part_002 lines 158-159). -/
def interiorB (w h x y : ℕ) : Bool :=
  decide (1 ≤ x) && decide (x + 1 < w) && decide (1 ≤ y) && decide (y + 1 < h)

/-- Magnitude of one cell of the produced field: `0` outside the interior
loop (the `Float32Array` is zero-initialised and never written there);
inside, the raw thresholded value, blended with the previous smoothed
array when one of matching length exists (part_002 lines 168-177). -/
def magCell (rsqrt : ℚ → ℚ) (smooth threshold : ℚ) (w h : ℕ)
    (img : ℕ → ℕ → ℚ) (prev : Option (List ℚ)) (x y : ℕ) : ℚ :=
  if interiorB w h x y then
    let m := rawMag rsqrt threshold w h img x y
    match prev with
    | some pm =>
        if pm.length = w * h then
          pm.getD (y * w + x) 0 * smooth + m * (1 - smooth)
        else m
    | none => m
  else 0

/-- Stored horizontal gradient of one cell: the unsmoothed Sobel response
inside the interior, `0` elsewhere (part_002 line 178). -/
def gxCell (w h : ℕ) (img : ℕ → ℕ → ℚ) (x y : ℕ) : ℚ :=
  if interiorB w h x y then sobelX w h img x y else 0

/-- Stored vertical gradient of one cell (part_002 line 179). -/
def gyCell (w h : ℕ) (img : ℕ → ℕ → ℚ) (x y : ℕ) : ℚ :=
  if interiorB w h x y then sobelY w h img x y else 0

/-- The edge-field extractor `computeEdgeField` (part_002 lines 141-184),
parametrised over the smoothing constant so that both variants share the
translation (part_001 lines 276-321 is the same function with its own
module constants).  Arrays are length `w*h` lists indexed by
`idx = y*w + x`; `edgeCount` counts the interior cells whose stored
magnitude is positive (part_002 line 175). -/
def computeEdgeFieldCore (rsqrt : ℚ → ℚ) (smooth : ℚ) (img : ℕ → ℕ → ℚ)
    (w h : ℕ) (threshold : ℚ) (prev : Option (List ℚ)) : EdgeField :=
  { w := w
    h := h
    mag := (List.range (w * h)).map fun i =>
      magCell rsqrt smooth threshold w h img prev (i % w) (i / w)
    gx := (List.range (w * h)).map fun i => gxCell w h img (i % w) (i / w)
    gy := (List.range (w * h)).map fun i => gyCell w h img (i % w) (i / w)
    edgeCount := (List.range (w * h)).countP fun i =>
      interiorB w h (i % w) (i / w)
        && decide (0 < magCell rsqrt smooth threshold w h img prev (i % w) (i / w)) }

/-- `computeEdgeField` as instantiated in part_002 (EDGE_SMOOTH = 0.65; the
unused `prevField` argument of the source signature is dropped). -/
def computeEdgeField_v2 (rsqrt : ℚ → ℚ) (img : ℕ → ℕ → ℚ) (w h : ℕ)
    (threshold : ℚ) (prev : Option (List ℚ)) : EdgeField :=
  computeEdgeFieldCore rsqrt EDGE_SMOOTH_v2 img w h threshold prev

/-- `computeEdgeField` as instantiated in part_001 (EDGE_SMOOTH = 0.5). -/
def computeEdgeField_v1 (rsqrt : ℚ → ℚ) (img : ℕ → ℕ → ℚ) (w h : ℕ)
    (threshold : ℚ) (prev : Option (List ℚ)) : EdgeField :=
  computeEdgeFieldCore rsqrt EDGE_SMOOTH_v1 img w h threshold prev

/-- Iterated extraction on a fixed buffer, feeding each tick's magnitude
array back as the next tick's previous smoothed array, exactly as the
render loop does via `smoothMagRef` (part_002 lines 60-67). -/
def smoothIter (rsqrt : ℚ → ℚ) (img : ℕ → ℕ → ℚ) (w h : ℕ) (threshold : ℚ)
    (start : Option (List ℚ)) : ℕ → List ℚ
  | 0 => (computeEdgeField_v2 rsqrt img w h threshold start).mag
  | n + 1 =>
      (computeEdgeField_v2 rsqrt img w h threshold
        (some (smoothIter rsqrt img w h threshold start n))).mag

/-- `initParticles` of part_002 (lines 121-139): `count` particles with
uniformly random position, small random velocity, sizes in
[SIZE_MIN, SIZE_MAX), random life phase and hue offset.  Particle `i`
consumes the eight stream values `r (8*i) .. r (8*i+7)` in source order. -/
def initParticles_v2 (count : ℕ) (W H : ℚ) (r : ℕ → ℚ) : List Particle :=
  (List.range count).map fun i =>
    { x := r (8 * i) * W
      y := r (8 * i + 1) * H
      vx := (r (8 * i + 2) - 0.5) * 0.5
      vy := (r (8 * i + 3) - 0.5) * 0.5
      size := SIZE_MIN_v2 + r (8 * i + 4) * (SIZE_MAX_v2 - SIZE_MIN_v2)
      baseSize := SIZE_MIN_v2 + r (8 * i + 5) * (SIZE_MAX_v2 - SIZE_MIN_v2)
      life := r (8 * i + 6)
      hueOffset := (r (8 * i + 7) - 0.5) * 20 }

/-- `initParticles` of part_001 (lines 256-274), identical up to the size
range constants. -/
def initParticles_v1 (count : ℕ) (W H : ℚ) (r : ℕ → ℚ) : List Particle :=
  (List.range count).map fun i =>
    { x := r (8 * i) * W
      y := r (8 * i + 1) * H
      vx := (r (8 * i + 2) - 0.5) * 0.5
      vy := (r (8 * i + 3) - 0.5) * 0.5
      size := SIZE_MIN_v1 + r (8 * i + 4) * (SIZE_MAX_v1 - SIZE_MIN_v1)
      baseSize := SIZE_MIN_v1 + r (8 * i + 5) * (SIZE_MAX_v1 - SIZE_MIN_v1)
      life := r (8 * i + 6)
      hueOffset := (r (8 * i + 7) - 0.5) * 20 }

/-- Indexed map over the particle pool: the `for (let p of particles)`
loops, with `j` the position of the particle in the pool. -/
def stepIdx (f : ℕ → Particle → Particle) : ℕ → List Particle → List Particle
  | _, [] => []
  | j, p :: ps => f j p :: stepIdx f (j + 1) ps

/-- One particle of `driftParticles` of part_002 (lines 270-290): random
acceleration 0.1, damping 0.95, integration, wrap exactly at the bounds,
fixed life increment 0.01 wrapping at 1.  Consumes `r c` and `r (c+1)`. -/
def driftOne_v2 (r : ℕ → ℚ) (c : ℕ) (W H : ℚ) (p : Particle) : Particle :=
  let vx := (p.vx + (r c - 0.5) * 0.1) * 0.95
  let vy := (p.vy + (r (c + 1) - 0.5) * 0.1) * 0.95
  let x0 := p.x + vx
  let y0 := p.y + vy
  let x := if x0 < 0 then W else if x0 > W then 0 else x0
  let y := if y0 < 0 then H else if y0 > H then 0 else y0
  let life0 := p.life + 0.01
  let life := if life0 > 1 then 0 else life0
  { p with x := x, y := y, vx := vx, vy := vy, life := life }

/-- `driftParticles` of part_002. -/
def driftParticles_v2 (r : ℕ → ℚ) (W H : ℚ) (particles : List Particle) :
    List Particle :=
  stepIdx (fun j p => driftOne_v2 r (2 * j) W H p) 0 particles

/-- One particle of `driftParticles` of part_001 (lines 432-452): random
acceleration 0.15, damping 0.92, otherwise as in part_002. -/
def driftOne_v1 (r : ℕ → ℚ) (c : ℕ) (W H : ℚ) (p : Particle) : Particle :=
  let vx := (p.vx + (r c - 0.5) * 0.15) * 0.92
  let vy := (p.vy + (r (c + 1) - 0.5) * 0.15) * 0.92
  let x0 := p.x + vx
  let y0 := p.y + vy
  let x := if x0 < 0 then W else if x0 > W then 0 else x0
  let y := if y0 < 0 then H else if y0 > H then 0 else y0
  let life0 := p.life + 0.01
  let life := if life0 > 1 then 0 else life0
  { p with x := x, y := y, vx := vx, vy := vy, life := life }

/-- `driftParticles` of part_001. -/
def driftParticles_v1 (r : ℕ → ℚ) (W H : ℚ) (particles : List Particle) :
    List Particle :=
  stepIdx (fun j p => driftOne_v1 r (2 * j) W H p) 0 particles

/-- The randomized sample pool of part_002 `stepParticles` (lines 190-200):
`min(800, floor(w*h*0.02))` random probes, keeping the cells whose
magnitude is positive.  Probe `i` consumes `r (2*i)` and `r (2*i+1)`. -/
def buildSamples_v2 (r : ℕ → ℚ) (field : EdgeField) : List Sample :=
  let sampleCount := min 800 (Int.floor ((field.w * field.h : ℕ) * (0.02 : ℚ))).toNat
  (List.range sampleCount).filterMap fun i =>
    let x := (Int.floor (r (2 * i) * (field.w : ℚ))).toNat
    let y := (Int.floor (r (2 * i + 1) * (field.h : ℚ))).toNat
    let idx := y * field.w + x
    if 0 < field.mag.getD idx 0 then
      some { x := x, y := y, idx := idx, strength := field.mag.getD idx 0 }
    else none

/-- The exhaustive sample pool of part_001 `stepParticles` (lines 334-343):
every cell of the field with positive magnitude, scanned row by row
(linear index `i = y*w + x`). -/
def buildSamples_v1 (field : EdgeField) : List Sample :=
  (List.range (field.h * field.w)).filterMap fun i =>
    let x := i % field.w
    let y := i / field.w
    let idx := y * field.w + x
    if 0 < field.mag.getD idx 0 then
      some { x := x, y := y, idx := idx, strength := field.mag.getD idx 0 }
    else none

/-- The stochastic nearest-sample search (part_002 lines 208-221 /
part_001 lines 352-369): `checkCount` random picks from the pool, keeping
the candidate with the smallest squared display-space distance; the best
starts as `null` with distance `Infinity`, so the first pick always wins.
Pick `k` consumes `r (c+k)`. -/
def pickBest (r : ℕ → ℚ) (c : ℕ) (samples : List Sample)
    (scaleX scaleY px py : ℚ) (checkCount : ℕ) : Option Best :=
  ((List.range checkCount).foldl
    (fun acc k =>
      let s := samples.getD (Int.floor (r (c + k) * (samples.length : ℚ))).toNat default
      let tx := (s.x : ℚ) * scaleX
      let ty := (s.y : ℚ) * scaleY
      let dx := tx - px
      let dy := ty - py
      let d2 := dx * dx + dy * dy
      match acc with
      | none => some ({ tx := tx, ty := ty, idx := s.idx, strength := s.strength }, d2)
      | some (b, bd) =>
          if d2 < bd then
            some ({ tx := tx, ty := ty, idx := s.idx, strength := s.strength }, d2)
          else some (b, bd))
    (none : Option (Best × ℚ))).map Prod.fst

/-- The attraction kick of part_002 (lines 223-231): beyond the dead zone
`dist > 1`, add the unit direction scaled by
`STICK_FORCE * (strength / 100)` (no clamping of the ratio). -/
def attractionDelta_v2 (rsqrt : ℚ → ℚ) (px py tx ty strength : ℚ) : ℚ × ℚ :=
  let dx := tx - px
  let dy := ty - py
  let dist := rsqrt (dx * dx + dy * dy)
  if dist > 1 then
    let force := STICK_FORCE_v2 * (strength / 100)
    ((dx / dist) * force, (dy / dist) * force)
  else (0, 0)

/-- The attraction kick of part_001 (lines 371-381): beyond the dead zone
`dist > 0.5`, add the unit direction scaled by
`STICK_FORCE * Math.min(1, strength / 50)`. -/
def attractionDelta_v1 (rsqrt : ℚ → ℚ) (px py tx ty strength : ℚ) : ℚ × ℚ :=
  let dx := tx - px
  let dy := ty - py
  let dist := rsqrt (dx * dx + dy * dy)
  if dist > 0.5 then
    let force := STICK_FORCE_v1 * min 1 (strength / 50)
    ((dx / dist) * force, (dy / dist) * force)
  else (0, 0)

/-- The tangent-normalisation divisor `Math.hypot(gxv, gyv) || 1`
(part_002 line 234 / part_001 line 386): the gradient length, replaced by
1 when the computed value is 0. -/
def gradLen (rsqrt : ℚ → ℚ) (gxv gyv : ℚ) : ℚ :=
  let hg := rsqrt (gxv * gxv + gyv * gyv)
  if hg = 0 then 1 else hg

/-- The 90-degree-rotated normalised gradient `(-gy, gx) / glen`
(part_002 line 235 / part_001 lines 387-388). -/
def tangentDir (rsqrt : ℚ → ℚ) (gxv gyv : ℚ) : ℚ × ℚ :=
  (-gyv / gradLen rsqrt gxv gyv, gxv / gradLen rsqrt gxv gyv)

/-- The velocity phase of one particle of part_002 `stepParticles`
(lines 207-241): when the pool is nonempty, the attraction kick toward the
stochastic nearest sample plus tangential jitter; when the pool is empty
the velocity is left untouched (there is no fallback branch in part_002).
Consumes `r c .. r (c+checkCount)` when the pool is nonempty. -/
def edgeVelocity_v2 (rsqrt : ℚ → ℚ) (r : ℕ → ℚ) (c : ℕ)
    (samples : List Sample) (scaleX scaleY : ℚ) (gxA gyA : List ℚ)
    (p : Particle) : ℚ × ℚ :=
  if 0 < samples.length then
    let checkCount := min 5 samples.length
    match pickBest r c samples scaleX scaleY p.x p.y checkCount with
    | some b =>
        let d := attractionDelta_v2 rsqrt p.x p.y b.tx b.ty b.strength
        let vx1 := p.vx + d.1
        let vy1 := p.vy + d.2
        let gxv := gxA.getD b.idx 0
        let gyv := gyA.getD b.idx 0
        let t := tangentDir rsqrt gxv gyv
        let jitter := (r (c + checkCount) - 0.5) * TANGENTIAL_JITTER_v2
        (vx1 + t.1 * jitter, vy1 + t.2 * jitter)
    | none => (p.vx, p.vy)
  else (p.vx, p.vy)

/-- The velocity phase of one particle of part_001 `stepParticles`
(lines 351-398): as in part_002 but with `checkCount = min 8`, the clamped
attraction kick, and a gentle random-acceleration fallback branch
(lines 394-398) when the sample pool is empty. -/
def edgeVelocity_v1 (rsqrt : ℚ → ℚ) (r : ℕ → ℚ) (c : ℕ)
    (samples : List Sample) (scaleX scaleY : ℚ) (gxA gyA : List ℚ)
    (p : Particle) : ℚ × ℚ :=
  if 0 < samples.length then
    let checkCount := min 8 samples.length
    match pickBest r c samples scaleX scaleY p.x p.y checkCount with
    | some b =>
        let d := attractionDelta_v1 rsqrt p.x p.y b.tx b.ty b.strength
        let vx1 := p.vx + d.1
        let vy1 := p.vy + d.2
        let gxv := gxA.getD b.idx 0
        let gyv := gyA.getD b.idx 0
        let t := tangentDir rsqrt gxv gyv
        let jitter := (r (c + checkCount) - 0.5) * TANGENTIAL_JITTER_v1
        (vx1 + t.1 * jitter, vy1 + t.2 * jitter)
    | none => (p.vx, p.vy)
  else (p.vx + (r c - 0.5) * 0.05, p.vy + (r (c + 1) - 0.5) * 0.05)

/-- One particle of part_002 `stepParticles` (lines 204-267): velocity
phase, drag 0.88, integration, motion-reactive sizing against the previous
position, wrap with margin 10, life advance `0.008 + random()*0.004`
wrapping at 1.  `old` is the previous-position entry (or the current
position when the map has none, line 205). -/
def stepOne_v2 (rsqrt : ℚ → ℚ) (r : ℕ → ℚ) (c : ℕ) (W H scaleX scaleY : ℚ)
    (gxA gyA : List ℚ) (samples : List Sample) (p : Particle)
    (old : ℚ × ℚ) : Particle :=
  let v := edgeVelocity_v2 rsqrt r c samples scaleX scaleY gxA gyA p
  let lifeR := r (c + (if 0 < samples.length then min 5 samples.length + 1 else 0))
  let vx := v.1 * DRAG_v2
  let vy := v.2 * DRAG_v2
  let x0 := p.x + vx
  let y0 := p.y + vy
  let speed := rsqrt ((x0 - old.1) * (x0 - old.1) + (y0 - old.2) * (y0 - old.2))
  let size :=
    if speed > SPEED_THRESHOLD_v2 then
      p.baseSize * (1 + min (speed / 15) 1.5 * 0.5)
    else p.size * 0.95 + p.baseSize * 0.05
  let x := if x0 < -10 then W + 10 else if x0 > W + 10 then -10 else x0
  let y := if y0 < -10 then H + 10 else if y0 > H + 10 then -10 else y0
  let life0 := p.life + 0.008 + lifeR * 0.004
  let life := if life0 > 1 then 0 else life0
  { x := x, y := y, vx := vx, vy := vy, size := size, baseSize := p.baseSize
    life := life, hueOffset := p.hueOffset }

/-- One particle of part_001 `stepParticles` (lines 348-429): drag 0.85,
sizing with boost `min(speed/12, 1.8)` and factor 0.6, relaxation
`0.93/0.07`, wrap margin 20, life advance `0.01 + random()*0.005`. -/
def stepOne_v1 (rsqrt : ℚ → ℚ) (r : ℕ → ℚ) (c : ℕ) (W H scaleX scaleY : ℚ)
    (gxA gyA : List ℚ) (samples : List Sample) (p : Particle)
    (old : ℚ × ℚ) : Particle :=
  let v := edgeVelocity_v1 rsqrt r c samples scaleX scaleY gxA gyA p
  let lifeR := r (c + (if 0 < samples.length then min 8 samples.length + 1 else 2))
  let vx := v.1 * DRAG_v1
  let vy := v.2 * DRAG_v1
  let x0 := p.x + vx
  let y0 := p.y + vy
  let speed := rsqrt ((x0 - old.1) * (x0 - old.1) + (y0 - old.2) * (y0 - old.2))
  let size :=
    if speed > SPEED_THRESHOLD_v1 then
      p.baseSize * (1 + min (speed / 12) 1.8 * 0.6)
    else p.size * 0.93 + p.baseSize * 0.07
  let x := if x0 < -20 then W + 20 else if x0 > W + 20 then -20 else x0
  let y := if y0 < -20 then H + 20 else if y0 > H + 20 then -20 else y0
  let life0 := p.life + 0.01 + lifeR * 0.005
  let life := if life0 > 1 then 0 else life0
  { x := x, y := y, vx := vx, vy := vy, size := size, baseSize := p.baseSize
    life := life, hueOffset := p.hueOffset }

/-- `stepParticles` of part_002 (lines 186-268).  The field is threaded
through as explicit state: the function performs no write to it, so it is
returned unchanged as the first component.  The second component is the
updated pool, the third the updated previous-position map (line 266). -/
def stepParticles_v2 (rsqrt : ℚ → ℚ) (r : ℕ → ℚ) (W H : ℚ)
    (field : EdgeField) (particles : List Particle)
    (prevPos : ℕ → Option (ℚ × ℚ)) :
    EdgeField × List Particle × (ℕ → Option (ℚ × ℚ)) :=
  let samples := buildSamples_v2 r field
  let c1 := 2 * min 800 (Int.floor ((field.w * field.h : ℕ) * (0.02 : ℚ))).toNat
  let stride := if 0 < samples.length then min 5 samples.length + 2 else 1
  let scaleX := W / (field.w : ℚ)
  let scaleY := H / (field.h : ℚ)
  let out := stepIdx
    (fun j p =>
      stepOne_v2 rsqrt r (c1 + stride * j) W H scaleX scaleY field.gx field.gy
        samples p ((prevPos j).getD (p.x, p.y)))
    0 particles
  (field, out, fun j => (out.get? j).map fun q => (q.x, q.y))

/-- `stepParticles` of part_001 (lines 323-430).  When `edgeCount == 0` the
function delegates to `driftParticles` and returns (lines 327-331), leaving
the previous-position map untouched; otherwise it runs the edge-seeking
update with the exhaustive sample pool. -/
def stepParticles_v1 (rsqrt : ℚ → ℚ) (r : ℕ → ℚ) (W H : ℚ)
    (field : EdgeField) (particles : List Particle)
    (prevPos : ℕ → Option (ℚ × ℚ)) :
    EdgeField × List Particle × (ℕ → Option (ℚ × ℚ)) :=
  if field.edgeCount = 0 then
    (field, driftParticles_v1 r W H particles, prevPos)
  else
    let samples := buildSamples_v1 field
    let stride := if 0 < samples.length then min 8 samples.length + 2 else 3
    let scaleX := W / (field.w : ℚ)
    let scaleY := H / (field.h : ℚ)
    let out := stepIdx
      (fun j p =>
        stepOne_v1 rsqrt r (stride * j) W H scaleX scaleY field.gx field.gy
          samples p ((prevPos j).getD (p.x, p.y)))
      0 particles
    (field, out, fun j => (out.get? j).map fun q => (q.x, q.y))

/-- Spec-side clamp to the unit interval, used to state the claimed form
of the attraction force (spec section 4.2 step 3). -/
def clamp01 (q : ℚ) : ℚ := max 0 (min 1 q)

/-- The particle invariant of spec section 8 in its amended form: the life
phase stays in the closed unit interval and sizes stay positive (the base
size is carried along because the sizing rule relaxes toward it). -/
def ParticleInv (p : Particle) : Prop :=
  0 ≤ p.life ∧ p.life ≤ 1 ∧ 0 < p.size ∧ 0 < p.baseSize

instance (p : Particle) : Decidable (ParticleInv p) := by
  unfold ParticleInv
  infer_instance

/-- Fuel-driven binary search for the integer square root: the greatest
`k` with `k*k <= n`, for `n < 2^fuel`.  Structural recursion on the fuel
keeps it reducible by the kernel, which `Nat.sqrt` (well-founded
recursion) is not. -/
def bsqrtGo (n : ℕ) : ℕ → ℕ → ℕ → ℕ
  | 0, lo, _ => lo
  | fuel + 1, lo, hi =>
      if hi ≤ lo + 1 then lo
      else
        let mid := (lo + hi) / 2
        if mid * mid ≤ n then bsqrtGo n fuel mid hi
        else bsqrtGo n fuel lo mid

/-- Kernel-reducible integer square root. -/
def natSqrtB (n : ℕ) : ℕ := bsqrtGo n 64 0 (n + 1)

/-- Concrete square-root function used to instantiate the abstract `rsqrt`
parameter in witnesses and counterexamples.  On the arguments actually
reached there it coincides with JS `Math.sqrt` (they are perfect squares,
e.g. `qsqrt 25 = 5`, `qsqrt 0 = 0`), which each witness checks by
computation. -/
def qsqrt (q : ℚ) : ℚ := (natSqrtB q.num.toNat : ℚ) / (natSqrtB q.den : ℚ)

/-- The all-zero random stream (every JS draw returning 0 is inside the
legal range of `Math.random()`). -/
def zeroRand : ℕ → ℚ := fun _ => 0

/-- Random stream for the life-boundary counterexample: the seventh draw
of the first particle (its `life`) is 0.99, all others 0. -/
def lifeRand : ℕ → ℚ := fun n => if n = 6 then 0.99 else 0

/-- The all-black intensity buffer. -/
def bufZero : ℕ → ℕ → ℚ := fun _ _ => 0

/-- A 17-wide buffer with a single vertical high-contrast boundary:
intensity 0 for x <= 8 and 255 beyond. -/
def bufStep : ℕ → ℕ → ℚ := fun x _ => if x ≤ 8 then 0 else 255

/-- Field extracted by part_002 from the all-black 3x3 buffer: it has
`edgeCount = 0`. -/
def fieldZero : EdgeField :=
  computeEdgeField_v2 qsqrt bufZero 3 3 EDGE_THRESHOLD_v2 none

/-- Field extracted by part_002 from the 17x3 contrast buffer: the two
interior cells straddling the boundary carry magnitude 255. -/
def fieldStep : EdgeField :=
  computeEdgeField_v2 qsqrt bufStep 17 3 EDGE_THRESHOLD_v2 none

/-- The empty previous-position map (first tick). -/
def noPrev : ℕ → Option (ℚ × ℚ) := fun _ => none

/-- Concrete particle used by the counterexamples. -/
def cexParticle : Particle :=
  { x := 5, y := 5, vx := 1, vy := -2, size := 1, baseSize := 1
    life := 0.5, hueOffset := 0 }

/- Helper lemmas about the grid layout. -/

theorem getD_map_range (g : ℕ → ℚ) (n i : ℕ) (hi : i < n) :
    ((List.range n).map g).getD i 0 = g i := by
  rw [List.getD_eq_getElem?_getD, List.getElem?_map, List.getElem?_range hi]
  rfl

theorem rowcol_mod (w x y : ℕ) (hx : x < w) : (y * w + x) % w = x := by
  rw [mul_comm y w, Nat.mul_add_mod, Nat.mod_eq_of_lt hx]

theorem rowcol_div (w x y : ℕ) (hx : x < w) : (y * w + x) / w = y := by
  have hw : 0 < w := lt_of_le_of_lt (Nat.zero_le x) hx
  rw [mul_comm y w, Nat.mul_add_div hw, Nat.div_eq_of_lt hx, add_zero]

theorem rowcol_lt (w h x y : ℕ) (hx : x < w) (hy : y < h) :
    y * w + x < w * h := by
  calc y * w + x < y * w + w := by omega
    _ = (y + 1) * w := by ring
    _ ≤ h * w := Nat.mul_le_mul_right w hy
    _ = w * h := mul_comm h w

theorem interiorB_iff (w h x y : ℕ) :
    interiorB w h x y = true ↔ 1 ≤ x ∧ x + 1 < w ∧ 1 ≤ y ∧ y + 1 < h := by
  simp [interiorB, and_assoc]

theorem mag_getD_cell (rsqrt : ℚ → ℚ) (smooth threshold : ℚ)
    (img : ℕ → ℕ → ℚ) (w h : ℕ) (prev : Option (List ℚ)) (x y : ℕ)
    (hx : x < w) (hy : y < h) :
    (computeEdgeFieldCore rsqrt smooth img w h threshold prev).mag.getD (y * w + x) 0
      = magCell rsqrt smooth threshold w h img prev x y := by
  have hlt := rowcol_lt w h x y hx hy
  show ((List.range (w * h)).map fun i =>
      magCell rsqrt smooth threshold w h img prev (i % w) (i / w)).getD (y * w + x) 0 = _
  rw [getD_map_range _ _ _ hlt, rowcol_mod w x y hx, rowcol_div w x y hx]

theorem gx_getD_cell (rsqrt : ℚ → ℚ) (smooth threshold : ℚ)
    (img : ℕ → ℕ → ℚ) (w h : ℕ) (prev : Option (List ℚ)) (x y : ℕ)
    (hx : x < w) (hy : y < h) :
    (computeEdgeFieldCore rsqrt smooth img w h threshold prev).gx.getD (y * w + x) 0
      = gxCell w h img x y := by
  have hlt := rowcol_lt w h x y hx hy
  show ((List.range (w * h)).map fun i => gxCell w h img (i % w) (i / w)).getD (y * w + x) 0 = _
  rw [getD_map_range _ _ _ hlt, rowcol_mod w x y hx, rowcol_div w x y hx]

theorem gy_getD_cell (rsqrt : ℚ → ℚ) (smooth threshold : ℚ)
    (img : ℕ → ℕ → ℚ) (w h : ℕ) (prev : Option (List ℚ)) (x y : ℕ)
    (hx : x < w) (hy : y < h) :
    (computeEdgeFieldCore rsqrt smooth img w h threshold prev).gy.getD (y * w + x) 0
      = gyCell w h img x y := by
  have hlt := rowcol_lt w h x y hx hy
  show ((List.range (w * h)).map fun i => gyCell w h img (i % w) (i / w)).getD (y * w + x) 0 = _
  rw [getD_map_range _ _ _ hlt, rowcol_mod w x y hx, rowcol_div w x y hx]

/- Evaluation lemmas for the concrete instances (the kernel cannot reduce
rational arithmetic, so these are established with norm_num). -/

theorem qsqrt_zero : qsqrt 0 = 0 := by
  unfold qsqrt
  norm_num [show natSqrtB 0 = 0 from by decide, show natSqrtB 1 = 1 from by decide]

theorem qsqrt_25 : qsqrt 25 = 5 := by
  unfold qsqrt
  norm_num [show natSqrtB (Int.toNat 25) = 5 from by decide,
    show natSqrtB 1 = 1 from by decide]

theorem qsqrt_1040400 : qsqrt 1040400 = 1020 := by
  unfold qsqrt
  norm_num [show natSqrtB (Int.toNat 1040400) = 1020 from by decide,
    show natSqrtB 1 = 1 from by decide]

theorem sobelX_step : sobelX 17 3 bufStep 8 1 = 1020 := by
  norm_num [sobelX, atPix, bufStep, min_def, max_def]

theorem sobelY_step : sobelY 17 3 bufStep 8 1 = 0 := by
  norm_num [sobelY, atPix, bufStep, min_def, max_def]

theorem rawMag_step : rawMag qsqrt EDGE_THRESHOLD_v2 17 3 bufStep 8 1 = 255 := by
  simp only [rawMag, sobelX_step, sobelY_step]
  norm_num [qsqrt_1040400, EDGE_THRESHOLD_v2]

theorem magCell_step :
    magCell qsqrt EDGE_SMOOTH_v2 EDGE_THRESHOLD_v2 17 3 bufStep none 8 1 = 255 := by
  simp [magCell, show interiorB 17 3 8 1 = true from by decide, rawMag_step]

theorem fieldStep_mag25 : fieldStep.mag.getD 25 0 = 255 := by
  show (computeEdgeFieldCore qsqrt EDGE_SMOOTH_v2 bufStep 17 3
      EDGE_THRESHOLD_v2 none).mag.getD (1 * 17 + 8) 0 = 255
  rw [mag_getD_cell qsqrt EDGE_SMOOTH_v2 EDGE_THRESHOLD_v2 bufStep 17 3 none 8 1
    (by decide) (by decide)]
  exact magCell_step

theorem fieldStep_edgeCount_pos : 0 < fieldStep.edgeCount := by
  rw [show fieldStep.edgeCount
      = (List.range (17 * 3)).countP (fun i =>
          interiorB 17 3 (i % 17) (i / 17)
            && decide (0 < magCell qsqrt EDGE_SMOOTH_v2 EDGE_THRESHOLD_v2 17 3
                bufStep none (i % 17) (i / 17))) from rfl]
  rw [List.countP_pos_iff]
  refine ⟨25, by simp, ?_⟩
  have h8 : (25 : ℕ) % 17 = 8 := by norm_num
  have h1 : (25 : ℕ) / 17 = 1 := by norm_num
  rw [h8, h1, magCell_step]
  decide

theorem sobelX_zero : sobelX 3 3 bufZero 1 1 = 0 := by
  norm_num [sobelX, atPix, bufZero]

theorem sobelY_zero : sobelY 3 3 bufZero 1 1 = 0 := by
  norm_num [sobelY, atPix, bufZero]

theorem magCell_zero :
    magCell qsqrt EDGE_SMOOTH_v2 EDGE_THRESHOLD_v2 3 3 bufZero none 1 1 = 0 := by
  simp only [magCell, show interiorB 3 3 1 1 = true from by decide, if_true,
    rawMag, sobelX_zero, sobelY_zero]
  norm_num [qsqrt_zero, EDGE_THRESHOLD_v2]

theorem fieldZero_edgeCount : fieldZero.edgeCount = 0 := by
  rw [show fieldZero.edgeCount
      = (List.range (3 * 3)).countP (fun i =>
          interiorB 3 3 (i % 3) (i / 3)
            && decide (0 < magCell qsqrt EDGE_SMOOTH_v2 EDGE_THRESHOLD_v2 3 3
                bufZero none (i % 3) (i / 3))) from rfl]
  rw [List.countP_eq_zero]
  intro i hi
  simp only [List.mem_range] at hi
  interval_cases i
  · decide
  · decide
  · decide
  · decide
  · rw [show (4 : ℕ) % 3 = 1 from by norm_num, show (4 : ℕ) / 3 = 1 from by norm_num,
      magCell_zero]
    decide
  · decide
  · decide
  · decide
  · decide

theorem floor9 : (Int.floor (((3 * 3 : ℕ) : ℚ) * 0.02)).toNat = 0 := by
  have h : Int.floor (((3 * 3 : ℕ) : ℚ) * 0.02) = 0 := by
    rw [Int.floor_eq_zero_iff]
    constructor <;> norm_num
  rw [h]
  rfl

theorem floor51 : (Int.floor (((17 * 3 : ℕ) : ℚ) * 0.02)).toNat = 1 := by
  have h : Int.floor (((17 * 3 : ℕ) : ℚ) * 0.02) = 1 := by
    rw [Int.floor_eq_iff]
    constructor <;> norm_num
  rw [h]
  rfl

theorem samplesZero : buildSamples_v2 zeroRand fieldZero = [] := by
  simp only [buildSamples_v2, show fieldZero.w = 3 from rfl,
    show fieldZero.h = 3 from rfl, floor9]
  simp

theorem fieldStep_mag0 : fieldStep.mag.getD 0 0 = 0 := by
  show (computeEdgeFieldCore qsqrt EDGE_SMOOTH_v2 bufStep 17 3
      EDGE_THRESHOLD_v2 none).mag.getD (0 * 17 + 0) 0 = 0
  rw [mag_getD_cell qsqrt EDGE_SMOOTH_v2 EDGE_THRESHOLD_v2 bufStep 17 3 none 0 0
    (by decide) (by decide)]
  simp [magCell, show interiorB 17 3 0 0 = false from by decide]

theorem samplesStep : buildSamples_v2 zeroRand fieldStep = [] := by
  have h0 : fieldStep.mag[0]?.getD 0 = (0 : ℚ) := by
    rw [← List.getD_eq_getElem?_getD]
    exact fieldStep_mag0
  simp only [buildSamples_v2, show fieldStep.w = 17 from rfl,
    show fieldStep.h = 3 from rfl, floor51]
  simp [zeroRand, h0]

/-- C6: for every field produced by the edge-field extractor from any input
buffer and any previous smoothed array, every border cell (x = 0, x = w-1,
y = 0 or y = h-1) has magnitude exactly 0 — the Sobel loops never touch the
border and the magnitude array is zero-initialised. -/
theorem c6_theorem (rsqrt : ℚ → ℚ) (img : ℕ → ℕ → ℚ) (w h : ℕ)
    (threshold : ℚ) (prev : Option (List ℚ)) (x y : ℕ)
    (hx : x < w) (hy : y < h)
    (hb : x = 0 ∨ x + 1 = w ∨ y = 0 ∨ y + 1 = h) :
    (computeEdgeField_v2 rsqrt img w h threshold prev).mag.getD (y * w + x) 0 = 0 := by
  unfold computeEdgeField_v2
  rw [mag_getD_cell rsqrt EDGE_SMOOTH_v2 threshold img w h prev x y hx hy]
  have hni : ¬ (1 ≤ x ∧ x + 1 < w ∧ 1 ≤ y ∧ y + 1 < h) := by omega
  have hfalse : interiorB w h x y = false := by
    rw [Bool.eq_false_iff]
    intro hT
    exact hni ((interiorB_iff w h x y).mp hT)
  simp [magCell, hfalse]

/-- Witness for C6 at a concrete border cell. -/
theorem c6_witness :
    (computeEdgeField_v2 qsqrt bufZero 3 3 60 none).mag.getD (1 * 3 + 0) 0 = 0 :=
  c6_theorem qsqrt bufZero 3 3 60 none 0 1 (by decide) (by decide) (Or.inl rfl)

/-- C7: every field produced by the edge-field extractor has
`mag`, `gx` and `gy` of length exactly `width * height`, and the cell
(x, y) of each of the three arrays is stored at linear index `y*w + x`
(its value being the corresponding per-cell function of the source loop). -/
theorem c7_theorem (rsqrt : ℚ → ℚ) (img : ℕ → ℕ → ℚ) (w h : ℕ)
    (threshold : ℚ) (prev : Option (List ℚ)) (x y : ℕ)
    (hx : x < w) (hy : y < h) :
    (computeEdgeField_v2 rsqrt img w h threshold prev).mag.length
        = (computeEdgeField_v2 rsqrt img w h threshold prev).w
          * (computeEdgeField_v2 rsqrt img w h threshold prev).h
    ∧ (computeEdgeField_v2 rsqrt img w h threshold prev).gx.length = w * h
    ∧ (computeEdgeField_v2 rsqrt img w h threshold prev).gy.length = w * h
    ∧ (computeEdgeField_v2 rsqrt img w h threshold prev).w = w
    ∧ (computeEdgeField_v2 rsqrt img w h threshold prev).h = h
    ∧ (computeEdgeField_v2 rsqrt img w h threshold prev).mag.getD (y * w + x) 0
        = magCell rsqrt EDGE_SMOOTH_v2 threshold w h img prev x y
    ∧ (computeEdgeField_v2 rsqrt img w h threshold prev).gx.getD (y * w + x) 0
        = gxCell w h img x y
    ∧ (computeEdgeField_v2 rsqrt img w h threshold prev).gy.getD (y * w + x) 0
        = gyCell w h img x y := by
  refine ⟨?_, ?_, ?_, rfl, rfl, ?_, ?_, ?_⟩
  · show ((List.range (w * h)).map _).length = w * h
    rw [List.length_map, List.length_range]
  · show ((List.range (w * h)).map _).length = w * h
    rw [List.length_map, List.length_range]
  · show ((List.range (w * h)).map _).length = w * h
    rw [List.length_map, List.length_range]
  · exact mag_getD_cell rsqrt EDGE_SMOOTH_v2 threshold img w h prev x y hx hy
  · exact gx_getD_cell rsqrt EDGE_SMOOTH_v2 threshold img w h prev x y hx hy
  · exact gy_getD_cell rsqrt EDGE_SMOOTH_v2 threshold img w h prev x y hx hy

/-- Witness for C7 at a concrete cell of the contrast buffer. -/
theorem c7_witness :
    (computeEdgeField_v2 qsqrt bufStep 17 3 60 none).mag.length
        = (computeEdgeField_v2 qsqrt bufStep 17 3 60 none).w
          * (computeEdgeField_v2 qsqrt bufStep 17 3 60 none).h
    ∧ (computeEdgeField_v2 qsqrt bufStep 17 3 60 none).gx.length = 17 * 3
    ∧ (computeEdgeField_v2 qsqrt bufStep 17 3 60 none).gy.length = 17 * 3
    ∧ (computeEdgeField_v2 qsqrt bufStep 17 3 60 none).w = 17
    ∧ (computeEdgeField_v2 qsqrt bufStep 17 3 60 none).h = 3
    ∧ (computeEdgeField_v2 qsqrt bufStep 17 3 60 none).mag.getD (1 * 17 + 8) 0
        = magCell qsqrt EDGE_SMOOTH_v2 60 17 3 bufStep none 8 1
    ∧ (computeEdgeField_v2 qsqrt bufStep 17 3 60 none).gx.getD (1 * 17 + 8) 0
        = gxCell 17 3 bufStep 8 1
    ∧ (computeEdgeField_v2 qsqrt bufStep 17 3 60 none).gy.getD (1 * 17 + 8) 0
        = gyCell 17 3 bufStep 8 1 :=
  c7_theorem qsqrt bufStep 17 3 60 none 8 1 (by decide) (by decide)

theorem magCell_mismatch (rsqrt : ℚ → ℚ) (smooth threshold : ℚ) (w h : ℕ)
    (img : ℕ → ℕ → ℚ) (pm : List ℚ) (hpm : pm.length ≠ w * h) (x y : ℕ) :
    magCell rsqrt smooth threshold w h img (some pm) x y
      = magCell rsqrt smooth threshold w h img none x y := by
  unfold magCell
  split
  · simp [hpm]
  · rfl

/-- C4: inside the interior, the extractor blends
`m_prev * alpha + m_raw * (1 - alpha)` exactly when a previous
smoothed-magnitude array of the same length `w*h` exists; when the lengths
differ the whole produced field equals the one produced with no previous
array at all (so the stale array is never read), and with no previous
array the stored magnitude is the raw thresholded value. -/
theorem c4_theorem (rsqrt : ℚ → ℚ) (img : ℕ → ℕ → ℚ) (w h : ℕ)
    (threshold : ℚ) (pm : List ℚ) (x y : ℕ)
    (hx1 : 1 ≤ x) (hx2 : x + 1 < w) (hy1 : 1 ≤ y) (hy2 : y + 1 < h) :
    (pm.length = w * h →
      (computeEdgeField_v2 rsqrt img w h threshold (some pm)).mag.getD (y * w + x) 0
        = pm.getD (y * w + x) 0 * EDGE_SMOOTH_v2
          + rawMag rsqrt threshold w h img x y * (1 - EDGE_SMOOTH_v2))
    ∧ (pm.length ≠ w * h →
      computeEdgeField_v2 rsqrt img w h threshold (some pm)
        = computeEdgeField_v2 rsqrt img w h threshold none)
    ∧ (computeEdgeField_v2 rsqrt img w h threshold none).mag.getD (y * w + x) 0
        = rawMag rsqrt threshold w h img x y := by
  have hx : x < w := by omega
  have hy : y < h := by omega
  have hI : interiorB w h x y = true :=
    (interiorB_iff w h x y).mpr ⟨hx1, hx2, hy1, hy2⟩
  refine ⟨?_, ?_, ?_⟩
  · intro hlen
    unfold computeEdgeField_v2
    rw [mag_getD_cell rsqrt EDGE_SMOOTH_v2 threshold img w h (some pm) x y hx hy]
    simp [magCell, hI, hlen]
  · intro hlen
    unfold computeEdgeField_v2 computeEdgeFieldCore
    have hcell : ∀ i ∈ List.range (w * h),
        magCell rsqrt EDGE_SMOOTH_v2 threshold w h img (some pm) (i % w) (i / w)
          = magCell rsqrt EDGE_SMOOTH_v2 threshold w h img none (i % w) (i / w) :=
      fun i _ => magCell_mismatch rsqrt EDGE_SMOOTH_v2 threshold w h img pm hlen _ _
    have hmag : ((List.range (w * h)).map fun i =>
        magCell rsqrt EDGE_SMOOTH_v2 threshold w h img (some pm) (i % w) (i / w))
        = (List.range (w * h)).map fun i =>
        magCell rsqrt EDGE_SMOOTH_v2 threshold w h img none (i % w) (i / w) :=
      List.map_congr_left hcell
    have hcount : ((List.range (w * h)).countP fun i =>
        interiorB w h (i % w) (i / w)
          && decide (0 < magCell rsqrt EDGE_SMOOTH_v2 threshold w h img (some pm) (i % w) (i / w)))
        = (List.range (w * h)).countP fun i =>
        interiorB w h (i % w) (i / w)
          && decide (0 < magCell rsqrt EDGE_SMOOTH_v2 threshold w h img none (i % w) (i / w)) := by
      apply List.countP_congr
      intro i hi
      rw [hcell i hi]
    rw [EdgeField.mk.injEq]
    exact ⟨rfl, rfl, hmag, rfl, rfl, hcount⟩
  · unfold computeEdgeField_v2
    rw [mag_getD_cell rsqrt EDGE_SMOOTH_v2 threshold img w h none x y hx hy]
    simp [magCell, hI]

/-- Witness for C4 at the boundary cell (8, 1) of the 17x3 contrast buffer,
with a matching previous array of 51 entries and (via the mismatch branch)
a 2-entry stale array. -/
theorem c4_witness :
    ((List.replicate 51 (10 : ℚ)).length = 17 * 3 →
      (computeEdgeField_v2 qsqrt bufStep 17 3 60 (some (List.replicate 51 (10 : ℚ)))).mag.getD (1 * 17 + 8) 0
        = (List.replicate 51 (10 : ℚ)).getD (1 * 17 + 8) 0 * EDGE_SMOOTH_v2
          + rawMag qsqrt 60 17 3 bufStep 8 1 * (1 - EDGE_SMOOTH_v2))
    ∧ ((List.replicate 51 (10 : ℚ)).length ≠ 17 * 3 →
      computeEdgeField_v2 qsqrt bufStep 17 3 60 (some (List.replicate 51 (10 : ℚ)))
        = computeEdgeField_v2 qsqrt bufStep 17 3 60 none)
    ∧ (computeEdgeField_v2 qsqrt bufStep 17 3 60 none).mag.getD (1 * 17 + 8) 0
        = rawMag qsqrt 60 17 3 bufStep 8 1 :=
  c4_theorem qsqrt bufStep 17 3 60 (List.replicate 51 (10 : ℚ)) 8 1
    (by decide) (by decide) (by decide) (by decide)

theorem smoothIter_length (rsqrt : ℚ → ℚ) (img : ℕ → ℕ → ℚ) (w h : ℕ)
    (threshold : ℚ) (start : Option (List ℚ)) (n : ℕ) :
    (smoothIter rsqrt img w h threshold start n).length = w * h := by
  cases n <;> simp [smoothIter, computeEdgeField_v2, computeEdgeFieldCore]

theorem smoothIter_rec (rsqrt : ℚ → ℚ) (img : ℕ → ℕ → ℚ) (w h : ℕ)
    (threshold : ℚ) (start : Option (List ℚ)) (x y : ℕ)
    (hx : x < w) (hy : y < h) (hI : interiorB w h x y = true) (n : ℕ) :
    (smoothIter rsqrt img w h threshold start (n + 1)).getD (y * w + x) 0
      = (smoothIter rsqrt img w h threshold start n).getD (y * w + x) 0 * EDGE_SMOOTH_v2
        + rawMag rsqrt threshold w h img x y * (1 - EDGE_SMOOTH_v2) := by
  have hlen := smoothIter_length rsqrt img w h threshold start n
  show (computeEdgeField_v2 rsqrt img w h threshold
      (some (smoothIter rsqrt img w h threshold start n))).mag.getD (y * w + x) 0 = _
  unfold computeEdgeField_v2
  rw [mag_getD_cell rsqrt EDGE_SMOOTH_v2 threshold img w h _ x y hx hy]
  simp [magCell, hI, hlen]

theorem smoothIter_closed (rsqrt : ℚ → ℚ) (img : ℕ → ℕ → ℚ) (w h : ℕ)
    (threshold : ℚ) (start : Option (List ℚ)) (x y : ℕ)
    (hx : x < w) (hy : y < h) (hI : interiorB w h x y = true) (n : ℕ) :
    (smoothIter rsqrt img w h threshold start n).getD (y * w + x) 0
      = rawMag rsqrt threshold w h img x y
        + ((smoothIter rsqrt img w h threshold start 0).getD (y * w + x) 0
            - rawMag rsqrt threshold w h img x y) * EDGE_SMOOTH_v2 ^ n := by
  induction n with
  | zero => rw [pow_zero]; ring
  | succ n ih =>
      rw [smoothIter_rec rsqrt img w h threshold start x y hx hy hI n, ih]
      ring

theorem smoothIter_border (rsqrt : ℚ → ℚ) (img : ℕ → ℕ → ℚ) (w h : ℕ)
    (threshold : ℚ) (start : Option (List ℚ)) (x y : ℕ)
    (hx : x < w) (hy : y < h) (hI : interiorB w h x y = false) (n : ℕ) :
    (smoothIter rsqrt img w h threshold start n).getD (y * w + x) 0 = 0 := by
  cases n with
  | zero =>
      show (computeEdgeField_v2 rsqrt img w h threshold start).mag.getD (y * w + x) 0 = 0
      unfold computeEdgeField_v2
      rw [mag_getD_cell rsqrt EDGE_SMOOTH_v2 threshold img w h start x y hx hy]
      simp [magCell, hI]
  | succ n =>
      show (computeEdgeField_v2 rsqrt img w h threshold
          (some (smoothIter rsqrt img w h threshold start n))).mag.getD (y * w + x) 0 = 0
      unfold computeEdgeField_v2
      rw [mag_getD_cell rsqrt EDGE_SMOOTH_v2 threshold img w h _ x y hx hy]
      simp [magCell, hI]

/-- C8: feeding the extractor its own magnitude output back as the previous
smoothed array over a fixed input buffer makes the smoothed magnitude of
every cell converge, within any positive tolerance, to the raw thresholded
magnitude of that buffer (which is `magCell ... none`, the value stored
when no smoothing history exists): the per-cell EMA has the constant input
as its fixed point, the distance shrinking geometrically with ratio 0.65. -/
theorem c8_theorem (rsqrt : ℚ → ℚ) (img : ℕ → ℕ → ℚ) (w h : ℕ)
    (threshold : ℚ) (start : Option (List ℚ)) (idx : ℕ)
    (hidx : idx < w * h) (ε : ℚ) (hε : 0 < ε) :
    ∃ N : ℕ, ∀ n, N ≤ n →
      |(smoothIter rsqrt img w h threshold start n).getD idx 0
        - magCell rsqrt EDGE_SMOOTH_v2 threshold w h img none (idx % w) (idx / w)| < ε := by
  have hw : 0 < w := by
    rcases Nat.eq_zero_or_pos w with h0 | h0
    · subst h0; simp at hidx
    · exact h0
  have hx : idx % w < w := Nat.mod_lt idx hw
  have hy : idx / w < h := by
    rw [Nat.div_lt_iff_lt_mul hw]
    exact lt_of_lt_of_le hidx (le_of_eq (mul_comm w h))
  have hidx2 : (idx / w) * w + idx % w = idx := by
    rw [mul_comm]
    exact Nat.div_add_mod idx w
  by_cases hI : interiorB w h (idx % w) (idx / w) = true
  · have htarget : magCell rsqrt EDGE_SMOOTH_v2 threshold w h img none (idx % w) (idx / w)
        = rawMag rsqrt threshold w h img (idx % w) (idx / w) := by
      simp [magCell, hI]
    have hs0 : (0 : ℚ) ≤ EDGE_SMOOTH_v2 := by norm_num [EDGE_SMOOTH_v2]
    have hs1 : EDGE_SMOOTH_v2 < 1 := by norm_num [EDGE_SMOOTH_v2]
    set raw := rawMag rsqrt threshold w h img (idx % w) (idx / w) with hraw
    set c := (smoothIter rsqrt img w h threshold start 0).getD (idx / w * w + idx % w) 0 - raw
      with hc
    have hD : (0 : ℚ) < |c| + 1 := by positivity
    obtain ⟨N, hN⟩ : ∃ n : ℕ, EDGE_SMOOTH_v2 ^ n < ε / (|c| + 1) :=
      exists_pow_lt_of_lt_one (div_pos hε hD) hs1
    refine ⟨N, fun n hn => ?_⟩
    rw [htarget, ← hidx2,
      smoothIter_closed rsqrt img w h threshold start (idx % w) (idx / w) hx hy hI n]
    rw [← hraw, ← hc]
    have habs : |raw + c * EDGE_SMOOTH_v2 ^ n - raw| = |c| * EDGE_SMOOTH_v2 ^ n := by
      rw [add_sub_cancel_left, abs_mul, abs_pow, abs_of_nonneg hs0]
    rw [habs]
    have h1 : |c| * EDGE_SMOOTH_v2 ^ n ≤ |c| * EDGE_SMOOTH_v2 ^ N :=
      mul_le_mul_of_nonneg_left (pow_le_pow_of_le_one hs0 (le_of_lt hs1) hn) (abs_nonneg c)
    have h2 : |c| * EDGE_SMOOTH_v2 ^ N ≤ |c| * (ε / (|c| + 1)) :=
      mul_le_mul_of_nonneg_left (le_of_lt hN) (abs_nonneg c)
    have h3 : |c| * (ε / (|c| + 1)) < ε := by
      rw [← mul_div_assoc, div_lt_iff₀ hD]
      nlinarith [abs_nonneg c]
    linarith
  · have hI' : interiorB w h (idx % w) (idx / w) = false := by
      simpa using hI
    refine ⟨0, fun n _ => ?_⟩
    have htarget0 : magCell rsqrt EDGE_SMOOTH_v2 threshold w h img none (idx % w) (idx / w)
        = 0 := by
      simp [magCell, hI']
    rw [htarget0, ← hidx2,
      smoothIter_border rsqrt img w h threshold start (idx % w) (idx / w) hx hy hI' n]
    simpa using hε

/-- Witness for C8 at the boundary cell index 25 of the 17x3 contrast
buffer, tolerance 1. -/
theorem c8_witness :
    0 < (1 : ℚ) ∧ ∃ N : ℕ, ∀ n, N ≤ n →
      |(smoothIter qsqrt bufStep 17 3 60 (some (List.replicate 51 (200 : ℚ))) n).getD 25 0
        - magCell qsqrt EDGE_SMOOTH_v2 60 17 3 bufStep none (25 % 17) (25 / 17)| < 1 :=
  ⟨by norm_num,
    c8_theorem qsqrt bufStep 17 3 60 (some (List.replicate 51 (200 : ℚ))) 25
      (by decide) 1 (by norm_num)⟩

/-- C9: the particle step never mutates the field it is given.  Both
variants only read `w, h, mag, gx, gy, edgeCount`; the embedding threads
the field through as explicit state and it comes back unchanged — width,
height, edgeCount and every element of the three arrays included. -/
theorem c9_theorem (rsqrt : ℚ → ℚ) (r : ℕ → ℚ) (W H : ℚ)
    (field : EdgeField) (particles : List Particle)
    (prevPos : ℕ → Option (ℚ × ℚ)) :
    (stepParticles_v2 rsqrt r W H field particles prevPos).1 = field
    ∧ (stepParticles_v1 rsqrt r W H field particles prevPos).1 = field
    ∧ (stepParticles_v2 rsqrt r W H field particles prevPos).1.w = field.w
    ∧ (stepParticles_v2 rsqrt r W H field particles prevPos).1.h = field.h
    ∧ (stepParticles_v2 rsqrt r W H field particles prevPos).1.edgeCount = field.edgeCount
    ∧ ∀ i : ℕ,
        (stepParticles_v2 rsqrt r W H field particles prevPos).1.mag.getD i 0
            = field.mag.getD i 0
        ∧ (stepParticles_v2 rsqrt r W H field particles prevPos).1.gx.getD i 0
            = field.gx.getD i 0
        ∧ (stepParticles_v2 rsqrt r W H field particles prevPos).1.gy.getD i 0
            = field.gy.getD i 0 := by
  have h2 : (stepParticles_v2 rsqrt r W H field particles prevPos).1 = field := rfl
  have h1 : (stepParticles_v1 rsqrt r W H field particles prevPos).1 = field := by
    unfold stepParticles_v1
    split <;> rfl
  refine ⟨h2, h1, ?_, ?_, ?_, fun i => ⟨?_, ?_, ?_⟩⟩ <;> rw [h2]

/-- C10: the tangential-jitter divisor `Math.hypot(gx, gy) || 1` is never
zero for any gradient pair, and at the degenerate gradient (0, 0) — where
`Math.sqrt(0) = 0` — the divisor is replaced by 1 and the tangent is the
zero vector, so the jitter update never divides by zero. -/
theorem c10_theorem (rsqrt : ℚ → ℚ) (gxv gyv : ℚ) (h0 : rsqrt 0 = 0) :
    gradLen rsqrt gxv gyv ≠ 0
    ∧ gradLen rsqrt 0 0 = 1
    ∧ tangentDir rsqrt 0 0 = (0, 0) := by
  refine ⟨?_, ?_, ?_⟩
  · unfold gradLen
    dsimp only
    split
    · norm_num
    · assumption
  · unfold gradLen
    simp [h0]
  · unfold tangentDir gradLen
    simp [h0]

/-- Witness for C10 with the actual rational square root. -/
theorem c10_witness :
    gradLen qsqrt 3 4 ≠ 0
    ∧ gradLen qsqrt 0 0 = 1
    ∧ tangentDir qsqrt 0 0 = (0, 0) :=
  c10_theorem qsqrt 3 4 qsqrt_zero

/-- C1 (amended): for a found nearest sample beyond the dead zone, the
part_001 variant increments velocity by the unit direction scaled by
`STICK_FORCE * clamp(strength/50, 0, 1)` (its `min(1, s/50)` equals the
clamp for the nonnegative strengths that occur), while the part_002
variant scales by `STICK_FORCE * (strength/100)` with the ratio NOT
clamped to [0, 1]. -/
theorem c1_theorem (rsqrt : ℚ → ℚ) (px py tx ty s : ℚ) (hs : 0 ≤ s) :
    attractionDelta_v1 rsqrt px py tx ty s
      = (if rsqrt ((tx - px) * (tx - px) + (ty - py) * (ty - py)) > 0.5 then
          (((tx - px) / rsqrt ((tx - px) * (tx - px) + (ty - py) * (ty - py)))
              * (STICK_FORCE_v1 * clamp01 (s / 50)),
           ((ty - py) / rsqrt ((tx - px) * (tx - px) + (ty - py) * (ty - py)))
              * (STICK_FORCE_v1 * clamp01 (s / 50)))
        else (0, 0))
    ∧ attractionDelta_v2 rsqrt px py tx ty s
      = (if rsqrt ((tx - px) * (tx - px) + (ty - py) * (ty - py)) > 1 then
          (((tx - px) / rsqrt ((tx - px) * (tx - px) + (ty - py) * (ty - py)))
              * (STICK_FORCE_v2 * (s / 100)),
           ((ty - py) / rsqrt ((tx - px) * (tx - px) + (ty - py) * (ty - py)))
              * (STICK_FORCE_v2 * (s / 100)))
        else (0, 0)) := by
  have hclamp : clamp01 (s / 50) = min 1 (s / 50) := by
    unfold clamp01
    rw [max_eq_right (le_min (by norm_num) (by positivity))]
  constructor
  · simp only [attractionDelta_v1]
    rw [hclamp]
  · rfl

/-- Witness for C1 (amended) at strength 255 and exact distance 5. -/
theorem c1_witness :
    attractionDelta_v1 qsqrt 5 (-3) 8 1 255
      = (if qsqrt ((8 - 5) * (8 - 5) + (1 - (-3)) * (1 - (-3))) > 0.5 then
          (((8 - 5) / qsqrt ((8 - 5) * (8 - 5) + (1 - (-3)) * (1 - (-3))))
              * (STICK_FORCE_v1 * clamp01 (255 / 50)),
           ((1 - (-3)) / qsqrt ((8 - 5) * (8 - 5) + (1 - (-3)) * (1 - (-3))))
              * (STICK_FORCE_v1 * clamp01 (255 / 50)))
        else (0, 0))
    ∧ attractionDelta_v2 qsqrt 5 (-3) 8 1 255
      = (if qsqrt ((8 - 5) * (8 - 5) + (1 - (-3)) * (1 - (-3))) > 1 then
          (((8 - 5) / qsqrt ((8 - 5) * (8 - 5) + (1 - (-3)) * (1 - (-3))))
              * (STICK_FORCE_v2 * (255 / 100)),
           ((1 - (-3)) / qsqrt ((8 - 5) * (8 - 5) + (1 - (-3)) * (1 - (-3))))
              * (STICK_FORCE_v2 * (255 / 100)))
        else (0, 0)) :=
  c1_theorem qsqrt 5 (-3) 8 1 255 (by norm_num)

/-- C1 counterexample: the part_002 variant does not clamp the ratio.  At
the reachable strength 255 (the magnitude the extractor itself produces at
cell 25 of the 17x3 contrast buffer) and exact distance 5 (beyond the dead
zone 1), the applied increment differs from the claimed
unit-direction x `STICK_FORCE * clamp(strength/100, 0, 1)` form: the code
yields (0.6885, 0.918) where the claim requires (0.27, 0.36). -/
theorem c1_counterexample :
    fieldStep.mag.getD 25 0 = 255
    ∧ qsqrt ((8 - 5) * (8 - 5) + (1 - (-3 : ℚ)) * (1 - (-3 : ℚ))) = 5
    ∧ attractionDelta_v2 qsqrt 5 (-3) 8 1 255
        ≠ (((8 - 5) / 5) * (STICK_FORCE_v2 * clamp01 (255 / 100)),
           ((1 - (-3 : ℚ)) / 5) * (STICK_FORCE_v2 * clamp01 (255 / 100))) := by
  have hdist : qsqrt ((8 - 5) * (8 - 5) + (1 - (-3 : ℚ)) * (1 - (-3 : ℚ))) = 5 := by
    norm_num [qsqrt_25]
  refine ⟨fieldStep_mag25, hdist, ?_⟩
  simp only [attractionDelta_v2]
  rw [hdist]
  norm_num [STICK_FORCE_v2, clamp01, Prod.ext_iff]

/-- C2 (amended): in the part_001 variant, a step with a field whose
`edgeCount` is 0 advances every particle by the ambient-drift rule — the
function delegates to `driftParticles` — and leaves the previous-position
map untouched.  (The part_002 variant never consults `edgeCount`; see the
counterexample.) -/
theorem c2_theorem (rsqrt : ℚ → ℚ) (r : ℕ → ℚ) (W H : ℚ)
    (field : EdgeField) (particles : List Particle)
    (prevPos : ℕ → Option (ℚ × ℚ)) (h : field.edgeCount = 0) :
    (stepParticles_v1 rsqrt r W H field particles prevPos).2.1
      = driftParticles_v1 r W H particles
    ∧ (stepParticles_v1 rsqrt r W H field particles prevPos).2.2 = prevPos := by
  unfold stepParticles_v1
  rw [if_pos h]
  exact ⟨rfl, rfl⟩

/-- Witness for C2 (amended) on the extracted all-black field. -/
theorem c2_witness :
    (stepParticles_v1 qsqrt zeroRand 100 100 fieldZero [cexParticle] noPrev).2.1
      = driftParticles_v1 zeroRand 100 100 [cexParticle]
    ∧ (stepParticles_v1 qsqrt zeroRand 100 100 fieldZero [cexParticle] noPrev).2.2
      = noPrev :=
  c2_theorem qsqrt zeroRand 100 100 fieldZero [cexParticle] noPrev fieldZero_edgeCount

/-- C2 counterexample: the part_002 `stepParticles` does not fall back to
the ambient-drift rule when `edgeCount = 0`.  On the extracted all-black
field (edgeCount 0) and the same random stream, the step output differs
from the drift output: the step leaves the velocity under drag 0.88 and
advances life by 0.008, while drift would apply random acceleration,
damping 0.95 and life increment 0.01. -/
theorem c2_counterexample :
    fieldZero.edgeCount = 0
    ∧ (stepParticles_v2 qsqrt zeroRand 100 100 fieldZero [cexParticle] noPrev).2.1
        ≠ driftParticles_v2 zeroRand 100 100 [cexParticle] := by
  refine ⟨fieldZero_edgeCount, fun hEq => ?_⟩
  have hstep : ((stepParticles_v2 qsqrt zeroRand 100 100 fieldZero
      [cexParticle] noPrev).2.1.headI).life = 0.508 := by
    simp only [stepParticles_v2, samplesZero, stepIdx, List.headI_cons,
      stepOne_v2, edgeVelocity_v2]
    norm_num [cexParticle, zeroRand]
  have hdrift : ((driftParticles_v2 zeroRand 100 100 [cexParticle]).headI).life
      = 0.51 := by
    simp only [driftParticles_v2, stepIdx, List.headI_cons, driftOne_v2]
    norm_num [cexParticle, zeroRand]
  have hlife := congrArg (fun l => (List.headI l).life) hEq
  dsimp only at hlife
  rw [hstep, hdrift] at hlife
  norm_num at hlife

/-- C3 (amended): the gentle-drift fallback for an empty sample pool exists
only in the part_001 variant: there, a particle stepped against an empty
pool receives the random acceleration `(random()-0.5)*0.05` on each axis
before drag.  (In the part_002 variant an empty pool leaves pure drag; see
the counterexample.) -/
theorem c3_theorem (rsqrt : ℚ → ℚ) (r : ℕ → ℚ) (c : ℕ)
    (W H scaleX scaleY : ℚ) (gxA gyA : List ℚ) (p : Particle) (old : ℚ × ℚ) :
    (stepOne_v1 rsqrt r c W H scaleX scaleY gxA gyA [] p old).vx
      = (p.vx + (r c - 0.5) * 0.05) * DRAG_v1
    ∧ (stepOne_v1 rsqrt r c W H scaleX scaleY gxA gyA [] p old).vy
      = (p.vy + (r (c + 1) - 0.5) * 0.05) * DRAG_v1 := by
  constructor <;> simp [stepOne_v1, edgeVelocity_v1]

/-- C3 counterexample: in part_002, with the 17x3 contrast field
(edgeCount 2 > 0) and a random stream whose probes all miss, the built
sample pool is empty and the particle's velocity update degenerates to
pure drag — no random acceleration is applied. -/
theorem c3_counterexample :
    0 < fieldStep.edgeCount
    ∧ buildSamples_v2 zeroRand fieldStep = []
    ∧ ((stepParticles_v2 qsqrt zeroRand 100 100 fieldStep
        [cexParticle] noPrev).2.1.headI).vx = cexParticle.vx * DRAG_v2
    ∧ ((stepParticles_v2 qsqrt zeroRand 100 100 fieldStep
        [cexParticle] noPrev).2.1.headI).vy = cexParticle.vy * DRAG_v2
    ∧ cexParticle.vx * DRAG_v2
        ≠ (cexParticle.vx + (zeroRand 0 - 0.5) * 0.05) * DRAG_v2 := by
  refine ⟨fieldStep_edgeCount_pos, samplesStep, ?_, ?_, ?_⟩
  · simp only [stepParticles_v2, samplesStep, stepIdx, List.headI_cons,
      stepOne_v2, edgeVelocity_v2]
    simp
  · simp only [stepParticles_v2, samplesStep, stepIdx, List.headI_cons,
      stepOne_v2, edgeVelocity_v2]
    simp
  · norm_num [cexParticle, zeroRand, DRAG_v2]

theorem lifeWrap_bounds (life lr inc mult : ℚ) (h1 : 0 ≤ life) (hlr : 0 ≤ lr)
    (hinc : 0 ≤ inc) (hmult : 0 ≤ mult) :
    0 ≤ (if life + inc + lr * mult > 1 then 0 else life + inc + lr * mult)
    ∧ (if life + inc + lr * mult > 1 then 0 else life + inc + lr * mult) ≤ 1 := by
  split_ifs with h
  · norm_num
  · constructor
    · nlinarith
    · linarith

theorem driftOne_v2_inv (r : ℕ → ℚ) (c : ℕ) (W H : ℚ) (p : Particle)
    (hp : ParticleInv p) : ParticleInv (driftOne_v2 r c W H p) := by
  obtain ⟨h1, h2, h3, h4⟩ := hp
  unfold ParticleInv driftOne_v2
  dsimp only
  refine ⟨?_, ?_, h3, h4⟩
  · split_ifs with h
    · norm_num
    · linarith
  · split_ifs with h
    · norm_num
    · push_neg at h
      linarith

theorem driftOne_v1_inv (r : ℕ → ℚ) (c : ℕ) (W H : ℚ) (p : Particle)
    (hp : ParticleInv p) : ParticleInv (driftOne_v1 r c W H p) := by
  obtain ⟨h1, h2, h3, h4⟩ := hp
  unfold ParticleInv driftOne_v1
  dsimp only
  refine ⟨?_, ?_, h3, h4⟩
  · split_ifs with h
    · norm_num
    · linarith
  · split_ifs with h
    · norm_num
    · push_neg at h
      linarith

theorem stepOne_v2_inv (rsqrt : ℚ → ℚ) (r : ℕ → ℚ) (c : ℕ)
    (W H scaleX scaleY : ℚ) (gxA gyA : List ℚ) (samples : List Sample)
    (p : Particle) (old : ℚ × ℚ) (hp : ParticleInv p) (hr : ∀ n, 0 ≤ r n) :
    ParticleInv (stepOne_v2 rsqrt r c W H scaleX scaleY gxA gyA samples p old) := by
  obtain ⟨h1, h2, h3, h4⟩ := hp
  have hlr := hr (c + (if 0 < samples.length then min 5 samples.length + 1 else 0))
  have hlr4 : 0 ≤ r (c + (if 0 < samples.length then min 5 samples.length + 1 else 0))
      * 0.004 := by
    have : (0 : ℚ) ≤ 0.004 := by norm_num
    exact mul_nonneg hlr this
  unfold ParticleInv stepOne_v2
  dsimp only
  refine ⟨?_, ?_, ?_, h4⟩
  · exact (lifeWrap_bounds p.life _ 0.008 0.004 h1 hlr (by norm_num) (by norm_num)).1
  · exact (lifeWrap_bounds p.life _ 0.008 0.004 h1 hlr (by norm_num) (by norm_num)).2
  · split_ifs with h
    · have hsp : (0 : ℚ)
          < min ((rsqrt ((p.x + (edgeVelocity_v2 rsqrt r c samples scaleX scaleY gxA gyA p).1 * DRAG_v2 - old.1)
            * (p.x + (edgeVelocity_v2 rsqrt r c samples scaleX scaleY gxA gyA p).1 * DRAG_v2 - old.1)
            + (p.y + (edgeVelocity_v2 rsqrt r c samples scaleX scaleY gxA gyA p).2 * DRAG_v2 - old.2)
            * (p.y + (edgeVelocity_v2 rsqrt r c samples scaleX scaleY gxA gyA p).2 * DRAG_v2 - old.2))) / 15) 1.5 := by
        refine lt_min ?_ (by norm_num)
        have h3lt := h
        rw [show SPEED_THRESHOLD_v2 = 3 from rfl] at h3lt
        linarith
      have hfac : (0 : ℚ)
          < 1 + min ((rsqrt ((p.x + (edgeVelocity_v2 rsqrt r c samples scaleX scaleY gxA gyA p).1 * DRAG_v2 - old.1)
            * (p.x + (edgeVelocity_v2 rsqrt r c samples scaleX scaleY gxA gyA p).1 * DRAG_v2 - old.1)
            + (p.y + (edgeVelocity_v2 rsqrt r c samples scaleX scaleY gxA gyA p).2 * DRAG_v2 - old.2)
            * (p.y + (edgeVelocity_v2 rsqrt r c samples scaleX scaleY gxA gyA p).2 * DRAG_v2 - old.2))) / 15) 1.5 * 0.5 := by
        linarith
      exact mul_pos h4 hfac
    · linarith

theorem stepOne_v1_inv (rsqrt : ℚ → ℚ) (r : ℕ → ℚ) (c : ℕ)
    (W H scaleX scaleY : ℚ) (gxA gyA : List ℚ) (samples : List Sample)
    (p : Particle) (old : ℚ × ℚ) (hp : ParticleInv p) (hr : ∀ n, 0 ≤ r n) :
    ParticleInv (stepOne_v1 rsqrt r c W H scaleX scaleY gxA gyA samples p old) := by
  obtain ⟨h1, h2, h3, h4⟩ := hp
  have hlr := hr (c + (if 0 < samples.length then min 8 samples.length + 1 else 2))
  have hlr5 : 0 ≤ r (c + (if 0 < samples.length then min 8 samples.length + 1 else 2))
      * 0.005 := by
    have : (0 : ℚ) ≤ 0.005 := by norm_num
    exact mul_nonneg hlr this
  unfold ParticleInv stepOne_v1
  dsimp only
  refine ⟨?_, ?_, ?_, h4⟩
  · exact (lifeWrap_bounds p.life _ 0.01 0.005 h1 hlr (by norm_num) (by norm_num)).1
  · exact (lifeWrap_bounds p.life _ 0.01 0.005 h1 hlr (by norm_num) (by norm_num)).2
  · split_ifs with h
    · have hsp : (0 : ℚ)
          < min ((rsqrt ((p.x + (edgeVelocity_v1 rsqrt r c samples scaleX scaleY gxA gyA p).1 * DRAG_v1 - old.1)
            * (p.x + (edgeVelocity_v1 rsqrt r c samples scaleX scaleY gxA gyA p).1 * DRAG_v1 - old.1)
            + (p.y + (edgeVelocity_v1 rsqrt r c samples scaleX scaleY gxA gyA p).2 * DRAG_v1 - old.2)
            * (p.y + (edgeVelocity_v1 rsqrt r c samples scaleX scaleY gxA gyA p).2 * DRAG_v1 - old.2))) / 12) 1.8 := by
        refine lt_min ?_ (by norm_num)
        have h3lt := h
        rw [show SPEED_THRESHOLD_v1 = 3 from rfl] at h3lt
        linarith
      have hfac : (0 : ℚ)
          < 1 + min ((rsqrt ((p.x + (edgeVelocity_v1 rsqrt r c samples scaleX scaleY gxA gyA p).1 * DRAG_v1 - old.1)
            * (p.x + (edgeVelocity_v1 rsqrt r c samples scaleX scaleY gxA gyA p).1 * DRAG_v1 - old.1)
            + (p.y + (edgeVelocity_v1 rsqrt r c samples scaleX scaleY gxA gyA p).2 * DRAG_v1 - old.2)
            * (p.y + (edgeVelocity_v1 rsqrt r c samples scaleX scaleY gxA gyA p).2 * DRAG_v1 - old.2))) / 12) 1.8 * 0.6 := by
        linarith
      exact mul_pos h4 hfac
    · linarith

theorem stepIdx_inv (f : ℕ → Particle → Particle)
    (hf : ∀ j p, ParticleInv p → ParticleInv (f j p)) :
    ∀ (j : ℕ) (ps : List Particle), (∀ p ∈ ps, ParticleInv p) →
      ∀ q ∈ stepIdx f j ps, ParticleInv q := by
  intro j ps
  induction ps generalizing j with
  | nil =>
      intro _ q hq
      simp [stepIdx] at hq
  | cons p ps ih =>
      intro hps q hq
      rw [show stepIdx f j (p :: ps) = f j p :: stepIdx f (j + 1) ps from rfl] at hq
      rcases List.mem_cons.mp hq with h | h
      · rw [h]
        exact hf j p (hps p (by simp))
      · exact ih (j + 1) (fun x hx => hps x (by simp [hx])) q h

theorem initParticles_v2_inv (count : ℕ) (W H : ℚ) (r : ℕ → ℚ)
    (hr : ∀ n, 0 ≤ r n ∧ r n < 1) :
    ∀ p ∈ initParticles_v2 count W H r,
      (0 ≤ p.life ∧ p.life < 1) ∧ 0 < p.size ∧ 0 < p.baseSize := by
  intro p hp
  simp only [initParticles_v2, List.mem_map, List.mem_range] at hp
  obtain ⟨i, _, rfl⟩ := hp
  have h4 := (hr (8 * i + 4)).1
  have h5 := (hr (8 * i + 5)).1
  refine ⟨⟨(hr (8 * i + 6)).1, (hr (8 * i + 6)).2⟩, ?_, ?_⟩
  · show 0 < SIZE_MIN_v2 + r (8 * i + 4) * (SIZE_MAX_v2 - SIZE_MIN_v2)
    have hnn : 0 ≤ r (8 * i + 4) * (SIZE_MAX_v2 - SIZE_MIN_v2) :=
      mul_nonneg h4 (by norm_num [SIZE_MAX_v2, SIZE_MIN_v2])
    have hmin : (0 : ℚ) < SIZE_MIN_v2 := by norm_num [SIZE_MIN_v2]
    linarith
  · show 0 < SIZE_MIN_v2 + r (8 * i + 5) * (SIZE_MAX_v2 - SIZE_MIN_v2)
    have hnn : 0 ≤ r (8 * i + 5) * (SIZE_MAX_v2 - SIZE_MIN_v2) :=
      mul_nonneg h5 (by norm_num [SIZE_MAX_v2, SIZE_MIN_v2])
    have hmin : (0 : ℚ) < SIZE_MIN_v2 := by norm_num [SIZE_MIN_v2]
    linarith

theorem initParticles_v1_inv (count : ℕ) (W H : ℚ) (r : ℕ → ℚ)
    (hr : ∀ n, 0 ≤ r n ∧ r n < 1) :
    ∀ p ∈ initParticles_v1 count W H r,
      (0 ≤ p.life ∧ p.life < 1) ∧ 0 < p.size ∧ 0 < p.baseSize := by
  intro p hp
  simp only [initParticles_v1, List.mem_map, List.mem_range] at hp
  obtain ⟨i, _, rfl⟩ := hp
  have h4 := (hr (8 * i + 4)).1
  have h5 := (hr (8 * i + 5)).1
  refine ⟨⟨(hr (8 * i + 6)).1, (hr (8 * i + 6)).2⟩, ?_, ?_⟩
  · show 0 < SIZE_MIN_v1 + r (8 * i + 4) * (SIZE_MAX_v1 - SIZE_MIN_v1)
    have hnn : 0 ≤ r (8 * i + 4) * (SIZE_MAX_v1 - SIZE_MIN_v1) :=
      mul_nonneg h4 (by norm_num [SIZE_MAX_v1, SIZE_MIN_v1])
    have hmin : (0 : ℚ) < SIZE_MIN_v1 := by norm_num [SIZE_MIN_v1]
    linarith
  · show 0 < SIZE_MIN_v1 + r (8 * i + 5) * (SIZE_MAX_v1 - SIZE_MIN_v1)
    have hnn : 0 ≤ r (8 * i + 5) * (SIZE_MAX_v1 - SIZE_MIN_v1) :=
      mul_nonneg h5 (by norm_num [SIZE_MAX_v1, SIZE_MIN_v1])
    have hmin : (0 : ℚ) < SIZE_MIN_v1 := by norm_num [SIZE_MIN_v1]
    linarith

/-- C5 (amended): after initialization every particle has `0 ≤ life < 1`
and positive sizes; every step — edge-seeking or ambient drift, in either
variant — preserves `0 ≤ life ≤ 1` and `size > 0`.  The original strict
bound `life < 1` is not preserved by the steps: `life` can land exactly on
1 (the wrap tests `life > 1` strictly), see the counterexample. -/
theorem c5_theorem (rsqrt : ℚ → ℚ) (r : ℕ → ℚ) (W H : ℚ) (field : EdgeField)
    (count : ℕ) (ps : List Particle) (prevPos : ℕ → Option (ℚ × ℚ))
    (hr : ∀ n, 0 ≤ r n ∧ r n < 1) (hps : ∀ p ∈ ps, ParticleInv p) :
    (∀ p ∈ initParticles_v2 count W H r, ParticleInv p ∧ p.life < 1)
    ∧ (∀ p ∈ initParticles_v1 count W H r, ParticleInv p ∧ p.life < 1)
    ∧ (∀ q ∈ (stepParticles_v2 rsqrt r W H field ps prevPos).2.1, ParticleInv q)
    ∧ (∀ q ∈ (stepParticles_v1 rsqrt r W H field ps prevPos).2.1, ParticleInv q)
    ∧ (∀ q ∈ driftParticles_v2 r W H ps, ParticleInv q)
    ∧ (∀ q ∈ driftParticles_v1 r W H ps, ParticleInv q) := by
  have hr0 : ∀ n, 0 ≤ r n := fun n => (hr n).1
  refine ⟨?_, ?_, ?_, ?_, ?_, ?_⟩
  · intro p hp
    obtain ⟨⟨l0, l1⟩, s, b⟩ := initParticles_v2_inv count W H r hr p hp
    exact ⟨⟨l0, le_of_lt l1, s, b⟩, l1⟩
  · intro p hp
    obtain ⟨⟨l0, l1⟩, s, b⟩ := initParticles_v1_inv count W H r hr p hp
    exact ⟨⟨l0, le_of_lt l1, s, b⟩, l1⟩
  · exact stepIdx_inv _
      (fun j p hp => stepOne_v2_inv rsqrt r _ W H _ _ field.gx field.gy _ p _ hp hr0)
      0 ps hps
  · by_cases h : field.edgeCount = 0
    · unfold stepParticles_v1
      rw [if_pos h]
      exact stepIdx_inv _ (fun j p hp => driftOne_v1_inv r _ W H p hp) 0 ps hps
    · unfold stepParticles_v1
      rw [if_neg h]
      exact stepIdx_inv _
        (fun j p hp => stepOne_v1_inv rsqrt r _ W H _ _ field.gx field.gy _ p _ hp hr0)
        0 ps hps
  · exact stepIdx_inv _ (fun j p hp => driftOne_v2_inv r _ W H p hp) 0 ps hps
  · exact stepIdx_inv _ (fun j p hp => driftOne_v1_inv r _ W H p hp) 0 ps hps

/-- Witness for C5 (amended) on a concrete pool with the all-zero stream. -/
theorem c5_witness :
    (∀ p ∈ initParticles_v2 1 100 100 zeroRand, ParticleInv p ∧ p.life < 1)
    ∧ (∀ p ∈ initParticles_v1 1 100 100 zeroRand, ParticleInv p ∧ p.life < 1)
    ∧ (∀ q ∈ (stepParticles_v2 qsqrt zeroRand 100 100 fieldZero
        [cexParticle] noPrev).2.1, ParticleInv q)
    ∧ (∀ q ∈ (stepParticles_v1 qsqrt zeroRand 100 100 fieldZero
        [cexParticle] noPrev).2.1, ParticleInv q)
    ∧ (∀ q ∈ driftParticles_v2 zeroRand 100 100 [cexParticle], ParticleInv q)
    ∧ (∀ q ∈ driftParticles_v1 zeroRand 100 100 [cexParticle], ParticleInv q) :=
  c5_theorem qsqrt zeroRand 100 100 fieldZero 1 [cexParticle] noPrev
    (fun _ => ⟨le_refl 0, by norm_num [zeroRand]⟩)
    (fun p hp => by
      rw [List.mem_singleton] at hp
      subst hp
      norm_num [ParticleInv, cexParticle])

/-- C5 counterexample: `life < 1` fails after a step.  A particle whose
initial life draw is 0.99 (a legal `Math.random()` value) reaches life
exactly 1 after one ambient-drift tick: the increment lands on 1 and the
wrap test `life > 1` does not fire. -/
theorem c5_counterexample :
    ((driftParticles_v2 zeroRand 100 100
        (initParticles_v2 1 100 100 lifeRand)).headI).life = 1
    ∧ ¬ (((driftParticles_v2 zeroRand 100 100
        (initParticles_v2 1 100 100 lifeRand)).headI).life < 1)
    ∧ 0 ≤ lifeRand 6 ∧ lifeRand 6 < 1 := by
  have h : ((driftParticles_v2 zeroRand 100 100
      (initParticles_v2 1 100 100 lifeRand)).headI).life = 1 := by
    simp only [initParticles_v2, show List.range 1 = [0] from rfl, List.map_cons,
      List.map_nil, driftParticles_v2, stepIdx, List.headI_cons, driftOne_v2]
    norm_num [lifeRand]
  refine ⟨h, by rw [h]; norm_num, by norm_num [lifeRand], by norm_num [lifeRand]⟩
